import Mathlib

/-!
# Verification of the arni-worker usage/quota accounting core

Shallow embedding of the core accounting subsystem:

* `src/src/services/model-stats.js` — the usage aggregator
  (`getModelStats`, `updateModelStats`, `getDefaultModelStats`);
* `src/src/services/claude-max.js` — the rolling 5-hour window and weekly
  budget tracking (`getClaudeMaxUsage`, `updateClaudeMaxUsage`,
  `getDefaultMaxUsage`);
* `src/src/utils.js` (`getWeekStart`) and `src/src/config.js` (`getConfig`);
* `src/src/handlers/usage.js` (`handleUsageLive`).

JavaScript objects used as string-keyed maps are embedded as association
lists (`List (κ × α)`); insertion appends at the end, update mutates in
place, matching JS object key semantics for the non-integer-like keys the
code uses.  Times are epoch milliseconds embedded as `Nat`; monetary
amounts are embedded as `ℚ`.  The external key-value collaborator is
embedded as an explicit slot value per key: absent, malformed JSON, or a
valid serialized record; `JSON.parse` of a malformed slot throws, which is
embedded as `Except.error ()` in functions that do not catch it.
-/

namespace ArniWorker

/-- Configuration values consumed by the core, from `getConfig` in
`src/src/config.js` (only the fields the core uses). -/
structure Config where
  maxTokensLimit : Nat
  weeklyTokensLimit : Nat
  windowDurationMs : Nat
  opusCostIn : ℚ
  opusCostOut : ℚ
  deriving Repr, DecidableEq

/-- The defaults of `getConfig`: `maxTokensLimit=88000`,
`weeklyTokensLimit=400000`, `windowDurationMs=5h`, `opusCostIn=0.015`,
`opusCostOut=0.075`. -/
def defaultConfig : Config where
  maxTokensLimit := 88000
  weeklyTokensLimit := 400000
  windowDurationMs := 5 * 60 * 60 * 1000
  opusCostIn := 15 / 1000
  opusCostOut := 75 / 1000

/-- A slot of the external key-value store: the stored string is absent,
is not valid JSON, or deserializes to a value of type `α`. -/
inductive KVSlot (α : Type) where
  | absent
  | malformed
  | valid (v : α)
  deriving Repr, DecidableEq

/-- Association-list lookup, embedding JS property access `m[k]`. -/
def lookupMap {κ α : Type} [DecidableEq κ] (m : List (κ × α)) (k : κ) : Option α :=
  match m with
  | [] => none
  | (k', v) :: rest => if k' = k then some v else lookupMap rest k

/-- Embeds the JS upsert pattern `if (!m[k]) m[k] = d; m[k] = f(m[k])`:
update the entry at `k` in place, or append `(k, f d)` if absent. -/
def updateMap {κ α : Type} [DecidableEq κ] (m : List (κ × α)) (k : κ) (d : α)
    (f : α → α) : List (κ × α) :=
  match m with
  | [] => [(k, f d)]
  | (k', v) :: rest =>
    if k' = k then (k', f v) :: rest else (k', v) :: updateMap rest k d f

/-- Sum of `g` over all entries of an association list. -/
def mapSum {κ α : Type} (m : List (κ × α)) (g : α → Nat) : Nat :=
  match m with
  | [] => 0
  | (_, v) :: rest => g v + mapSum rest g

/-- A usage event as built by `handleUsageLog` in
`src/src/handlers/usage.js` (defaults already applied); the event's
timestamp is passed separately as `now`. -/
structure UsageEvent where
  provider : String
  model : String
  tokens_in : Nat
  tokens_out : Nat
  cost : ℚ
  task_type : String
  success : Bool
  deriving Repr, DecidableEq

/-- Per-key accumulator `{requests, tokens_in, tokens_out, cost}`. -/
structure Totals where
  requests : Nat
  tokens_in : Nat
  tokens_out : Nat
  cost : ℚ
  deriving Repr, DecidableEq

def zeroTotals : Totals := ⟨0, 0, 0, 0⟩

/-- The `totals` accumulator, which additionally carries `savings`. -/
structure GrandTotals where
  requests : Nat
  tokens_in : Nat
  tokens_out : Nat
  cost : ℚ
  savings : ℚ
  deriving Repr, DecidableEq

/-- The `model_stats` singleton record (`AggregateStats`).  `daily` is
keyed by UTC day index (the embedding of the `YYYY-MM-DD` string),
`lastUpdated` by epoch ms (the embedding of the ISO timestamp). -/
structure ModelStats where
  providers : List (String × Totals)
  models : List (String × Totals)
  task_types : List (String × Totals)
  model_task_matrix : List (String × List (String × Nat))
  daily : List (Nat × Totals)
  totals : GrandTotals
  lastUpdated : Nat
  deriving Repr, DecidableEq

/-- `getDefaultModelStats` from `src/src/services/model-stats.js`:
five pre-seeded zero provider rows, everything else empty. -/
def getDefaultModelStats (now : Nat) : ModelStats where
  providers :=
    [("anthropic", zeroTotals), ("openrouter", zeroTotals), ("z_ai", zeroTotals),
     ("gemini", zeroTotals), ("local", zeroTotals)]
  models := []
  task_types := []
  model_task_matrix := []
  daily := []
  totals := ⟨0, 0, 0, 0, 0⟩
  lastUpdated := now

/-- `getModelStats`: absent -> defaults; a malformed stored value makes
`JSON.parse` throw, and there is no try/catch in this function, so the
error propagates (`Except.error`). -/
def getModelStats (slot : KVSlot ModelStats) (now : Nat) : Except Unit ModelStats :=
  match slot with
  | .absent => .ok (getDefaultModelStats now)
  | .malformed => .error ()
  | .valid s => .ok s

def msPerDay : Nat := 24 * 60 * 60 * 1000

/-- `getWeekStart` from `src/src/utils.js`: the epoch ms of the most
recent Monday 00:00 UTC.  Day 0 of the epoch (1970-01-01) was a Thursday,
so the UTC weekday (Sunday = 0) of day `d` is `(d + 4) % 7`. -/
def getWeekStart (now : Nat) : Nat :=
  let d := now / msPerDay
  let day := (d + 4) % 7
  let diff := if day = 0 then 6 else day - 1
  (d - diff) * msPerDay

/-- The persisted `claude_max_usage` record (the fields `toStore` writes
in `updateClaudeMaxUsage`); `lastSession` is an ISO timestamp embedded as
epoch ms. -/
structure StoredMax where
  tokensUsed : Nat
  tokensLimit : Nat
  windowStart : Nat
  sessions : Nat
  lastSession : Option Nat
  weeklyTokensUsed : Nat
  weeklyTokensLimit : Nat
  weekStart : Nat
  deriving Repr, DecidableEq

/-- `getDefaultMaxUsage` (persisted fields only). -/
def getDefaultMaxUsage (cfg : Config) (now : Nat) : StoredMax where
  tokensUsed := 0
  tokensLimit := cfg.maxTokensLimit
  windowStart := now
  sessions := 0
  lastSession := none
  weeklyTokensUsed := 0
  weeklyTokensLimit := cfg.weeklyTokensLimit
  weekStart := getWeekStart now

/-- `updateClaudeMaxUsage` from `src/src/services/claude-max.js`.  Reads
the raw slot with no try/catch, so a malformed slot throws
(`Except.error`).  On a present record it applies the lazy window-expiry
and week-rollover resets, then accumulates and persists; `x || y`
defaulting on numeric fields is embedded as a zero test. -/
def updateClaudeMaxUsage (cfg : Config) (slot : KVSlot StoredMax)
    (tokensIn tokensOut now : Nat) : Except Unit StoredMax :=
  let totalTokens := tokensIn + tokensOut
  let store : StoredMax → StoredMax := fun u =>
    { tokensUsed := u.tokensUsed + totalTokens
      tokensLimit := if u.tokensLimit = 0 then cfg.maxTokensLimit else u.tokensLimit
      windowStart := u.windowStart
      sessions := u.sessions + 1
      lastSession := some now
      weeklyTokensUsed := u.weeklyTokensUsed + totalTokens
      weeklyTokensLimit :=
        if u.weeklyTokensLimit = 0 then cfg.weeklyTokensLimit else u.weeklyTokensLimit
      weekStart := if u.weekStart = 0 then getWeekStart now else u.weekStart }
  match slot with
  | .malformed => .error ()
  | .absent => .ok (store (getDefaultMaxUsage cfg now))
  | .valid u0 =>
    let u1 :=
      if cfg.windowDurationMs < now - u0.windowStart then
        { u0 with tokensUsed := 0, windowStart := now, sessions := 0 }
      else u0
    let currentWeekStart := getWeekStart now
    let u2 :=
      if u1.weekStart = 0 ∨ u1.weekStart < currentWeekStart then
        { u1 with weeklyTokensUsed := 0, weekStart := currentWeekStart }
      else u1
    .ok (store u2)

/-- What `getClaudeMaxUsage` returns: the reconciled persisted fields plus
the derived fields.  The default object built on absent/malformed state
carries no `daysUntilWeekReset` field, hence the `Option`. -/
structure MaxUsageView where
  tokensUsed : Nat
  tokensLimit : Nat
  windowStart : Nat
  sessions : Nat
  lastSession : Option Nat
  weeklyTokensUsed : Nat
  weeklyTokensLimit : Nat
  weekStart : Nat
  timeRemainingMs : Nat
  daysUntilWeekReset : Option Nat
  deriving Repr, DecidableEq

/-- The default view returned by `getClaudeMaxUsage` when the slot is
absent or unparseable. -/
def defaultMaxView (cfg : Config) (now : Nat) : MaxUsageView where
  tokensUsed := 0
  tokensLimit := cfg.maxTokensLimit
  windowStart := now
  sessions := 0
  lastSession := none
  weeklyTokensUsed := 0
  weeklyTokensLimit := cfg.weeklyTokensLimit
  weekStart := getWeekStart now
  timeRemainingMs := cfg.windowDurationMs
  daysUntilWeekReset := none

/-- `getClaudeMaxUsage`: the whole body is inside a try/catch, so both an
absent and a malformed slot yield the default view.  A present record gets
the lazy resets applied and the derived fields computed; nothing is
persisted. -/
def getClaudeMaxUsage (cfg : Config) (slot : KVSlot StoredMax) (now : Nat) :
    MaxUsageView :=
  match slot with
  | .absent => defaultMaxView cfg now
  | .malformed => defaultMaxView cfg now
  | .valid u0 =>
    let ws0 := if u0.windowStart = 0 then now else u0.windowStart
    let u1 :=
      if cfg.windowDurationMs < now - ws0 then
        { u0 with tokensUsed := 0, windowStart := now, sessions := 0 }
      else u0
    let currentWeekStart := getWeekStart now
    let u2 :=
      if u1.weekStart = 0 ∨ u1.weekStart < currentWeekStart then
        { u1 with weeklyTokensUsed := 0, weekStart := currentWeekStart }
      else u1
    let ws1 := if u2.windowStart = 0 then now else u2.windowStart
    let msUntilMonday := currentWeekStart + 7 * msPerDay - now
    { tokensUsed := u2.tokensUsed
      tokensLimit := if u2.tokensLimit = 0 then cfg.maxTokensLimit else u2.tokensLimit
      windowStart := u2.windowStart
      sessions := u2.sessions
      lastSession := u2.lastSession
      weeklyTokensUsed := u2.weeklyTokensUsed
      weeklyTokensLimit :=
        if u2.weeklyTokensLimit = 0 then cfg.weeklyTokensLimit else u2.weeklyTokensLimit
      weekStart := u2.weekStart
      timeRemainingMs := cfg.windowDurationMs - (now - ws1)
      daysUntilWeekReset := some ((msUntilMonday + msPerDay - 1) / msPerDay) }

/-- Substring occurrence over character lists, embedding JS
`String.prototype.includes`. -/
def listIncludes (pat : List Char) : List Char → Bool
  | [] => pat.isEmpty
  | c :: cs => pat.isPrefixOf (c :: cs) || listIncludes pat cs

/-- `s.includes(pat)` on strings. -/
def strIncludes (s pat : String) : Bool := listIncludes pat.data s.data

/-- ASCII lowering of one character, embedding what
`String.prototype.toLowerCase` does on the ASCII range the code's model
names live in. -/
def charToLower (c : Char) : Char :=
  if 65 ≤ c.toNat ∧ c.toNat ≤ 90 then Char.ofNat (c.toNat + 32) else c

/-- `s.toLowerCase()`. -/
def strToLower (s : String) : String := ⟨s.data.map charToLower⟩

/-- The guard on line 20 of `src/src/services/model-stats.js`:
`usage.provider === 'anthropic' && (usage.model || '').toLowerCase().includes('opus')`. -/
def isOpusEvent (e : UsageEvent) : Bool :=
  e.provider == "anthropic" && strIncludes (strToLower e.model) "opus"

/-- Accumulate one event into a per-key `Totals` row
(`requests++, tokens_in += ..., tokens_out += ..., cost += ...`). -/
def addEvent (e : UsageEvent) (t : Totals) : Totals where
  requests := t.requests + 1
  tokens_in := t.tokens_in + e.tokens_in
  tokens_out := t.tokens_out + e.tokens_out
  cost := t.cost + e.cost

/-- The UTC day index of `now`, embedding the `YYYY-MM-DD` key of `daily`. -/
def dayKey (now : Nat) : Nat := now / msPerDay

/-- The pure aggregation part of `updateModelStats` (lines 24–77): fold one
event into providers, models, task types, the model×task matrix, daily,
and totals, and add `max(0, opusCost - cost)` to `savings`. -/
def applyEventToStats (cfg : Config) (s : ModelStats) (e : UsageEvent) (now : Nat) :
    ModelStats where
  providers := updateMap s.providers e.provider zeroTotals (addEvent e)
  models := updateMap s.models e.model zeroTotals (addEvent e)
  task_types := updateMap s.task_types e.task_type zeroTotals (addEvent e)
  model_task_matrix :=
    updateMap s.model_task_matrix e.model []
      (fun row => updateMap row e.task_type 0 (· + 1))
  daily := updateMap s.daily (dayKey now) zeroTotals (addEvent e)
  totals :=
    { requests := s.totals.requests + 1
      tokens_in := s.totals.tokens_in + e.tokens_in
      tokens_out := s.totals.tokens_out + e.tokens_out
      cost := s.totals.cost + e.cost
      savings := s.totals.savings +
        max 0 ((e.tokens_in * cfg.opusCostIn + e.tokens_out * cfg.opusCostOut) / 1000
                - e.cost) }
  lastUpdated := now

/-- `updateModelStats`: read `model_stats` (throws on malformed JSON — no
try/catch), conditionally update `claude_max_usage` for Anthropic Opus
events (which rethrows its parse error), then fold the event into the
stats and persist both slots. -/
def updateModelStats (cfg : Config) (agg : KVSlot ModelStats) (cm : KVSlot StoredMax)
    (e : UsageEvent) (now : Nat) :
    Except Unit (KVSlot ModelStats × KVSlot StoredMax) := do
  let stats ← getModelStats agg now
  let cm' ←
    if isOpusEvent e then
      (KVSlot.valid ·) <$> updateClaudeMaxUsage cfg cm e.tokens_in e.tokens_out now
    else
      pure cm
  return (.valid (applyEventToStats cfg stats e now), cm')

/-- Fold a sequence of timestamped events into the aggregate record, one
`updateModelStats` aggregation per event. -/
def recordEvents (cfg : Config) (s : ModelStats) (es : List (UsageEvent × Nat)) :
    ModelStats :=
  es.foldl (fun acc p => applyEventToStats cfg acc p.1 p.2) s

/-- Modelled from the spec: the key-value collaborator (external, not in
`src/`) lists keys under a prefix "in lexicographic ascending order,
truncated to `limit`".  Usage-log keys are `usage:` followed by the
decimal epoch-ms timestamp, all of the same width, so key order coincides
with numeric timestamp order; the store's key set under the `usage:`
prefix is embedded as the ascending list of those timestamps, and
`list({prefix:'usage:', limit})` as `take limit` of it. -/
def kvListUsage (keys : List Nat) (limit : Nat) : List Nat := keys.take limit

/-- `handleUsageLive` from `src/src/handlers/usage.js`: list at most 10
usage keys, fetch each record, and reverse.  Records are in bijection
with their timestamp keys, so the handler is embedded on keys. -/
def handleUsageLiveKeys (keys : List Nat) : List Nat :=
  (kvListUsage keys 10).reverse

/-- The spec's words for `GET /usage/live` ("the 10 most recent raw usage
records, reversed to show newest first"), on an ascending key list: the
last ten keys, newest first. -/
def tenMostRecentNewestFirst (keys : List Nat) : List Nat :=
  (keys.reverse).take 10

/-- Sum of `Totals.requests` over a stats map. -/
def sumRequests (m : List (String × Totals)) : Nat := mapSum m Totals.requests

/-- `models[m].requests`, 0 when the model has no row. -/
def modelRequests (s : ModelStats) (m : String) : Nat :=
  ((lookupMap s.models m).map Totals.requests).getD 0

/-- The sum of `model_task_matrix[m][*]`, 0 when the model has no row. -/
def matrixRowSum (s : ModelStats) (m : String) : Nat :=
  mapSum ((lookupMap s.model_task_matrix m).getD []) (fun n => n)

/-- The event of the spec's worked scenario (`cost:0.05` is `5/100`). -/
def c4event : UsageEvent where
  provider := "anthropic"
  model := "claude-opus-4"
  tokens_in := 1000
  tokens_out := 500
  cost := 5 / 100
  task_type := "planning"
  success := true

/-- A fixed current time for the worked scenario (2025-10-08, a Wednesday). -/
def c4now : Nat := 1759999000000

/-- Counting projections of an `updateModelStats` result checked by the
worked scenario: `models["claude-opus-4"].requests`,
`model_task_matrix["claude-opus-4"]["planning"]`, window `tokensUsed` and
`sessions`. -/
def c4counts (r : Except Unit (KVSlot ModelStats × KVSlot StoredMax)) :
    Option (Option Nat × Option Nat × Nat × Nat) :=
  match r with
  | .ok (KVSlot.valid s, KVSlot.valid u) =>
      some ((lookupMap s.models "claude-opus-4").map Totals.requests,
        (lookupMap s.model_task_matrix "claude-opus-4").bind
          (fun row => lookupMap row "planning"),
        u.tokensUsed, u.sessions)
  | _ => none

/-- The `totals.savings` of an `updateModelStats` result. -/
def c4savings (r : Except Unit (KVSlot ModelStats × KVSlot StoredMax)) : Option ℚ :=
  match r with
  | .ok (KVSlot.valid s, _) => some s.totals.savings
  | _ => none

/-- A non-Opus event (provider `gemini`), for the frame condition. -/
def geminiEvent : UsageEvent where
  provider := "gemini"
  model := "gemini-2.5-pro"
  tokens_in := 700
  tokens_out := 300
  cost := 1 / 100
  task_type := "general"
  success := true

/-- A concrete persisted window record used to instantiate theorems:
`windowStart` and `weekStart` date from 2023-11-14, long before `c4now`. -/
def staleStored : StoredMax where
  tokensUsed := 4200
  tokensLimit := 88000
  windowStart := 1699960000000
  sessions := 3
  lastSession := some 1699960000000
  weeklyTokensUsed := 9000
  weeklyTokensLimit := 400000
  weekStart := 1699833600000

/-- An ascending store of eleven usage-record keys. -/
def elevenKeys : List Nat := [1, 2, 3, 4, 5, 6, 7, 8, 9, 10, 11]

/-! ## Association-list lemmas -/

theorem lookupMap_updateMap_self {κ α : Type} [DecidableEq κ] (m : List (κ × α))
    (k : κ) (d : α) (f : α → α) :
    lookupMap (updateMap m k d f) k = some (f ((lookupMap m k).getD d)) := by
  induction m with
  | nil => simp [lookupMap, updateMap]
  | cons hd tl ih =>
    obtain ⟨j, v⟩ := hd
    by_cases hk : j = k
    · subst hk; simp [lookupMap, updateMap]
    · simp [lookupMap, updateMap, hk, ih]

theorem lookupMap_updateMap_ne {κ α : Type} [DecidableEq κ] (m : List (κ × α))
    (k j : κ) (d : α) (f : α → α) (hj : j ≠ k) :
    lookupMap (updateMap m k d f) j = lookupMap m j := by
  induction m with
  | nil => simp [lookupMap, updateMap, Ne.symm hj]
  | cons hd tl ih =>
    obtain ⟨i, v⟩ := hd
    by_cases hk : i = k
    · subst hk; simp [lookupMap, updateMap, Ne.symm hj]
    · by_cases hij : i = j <;> simp [lookupMap, updateMap, hk, hij, hj, ih]

theorem mapSum_updateMap {κ α : Type} [DecidableEq κ] (m : List (κ × α)) (k : κ)
    (d : α) (f : α → α) (g : α → Nat) (c : Nat) (hd : g d = 0)
    (hf : ∀ v, g (f v) = g v + c) :
    mapSum (updateMap m k d f) g = mapSum m g + c := by
  induction m with
  | nil => simp [mapSum, updateMap, hf d, hd]
  | cons hd' tl ih =>
    obtain ⟨j, v⟩ := hd'
    by_cases hk : j = k <;> simp [updateMap, mapSum, hk, hf, ih] <;> omega

/-! ## Aggregation-step lemmas -/

theorem recordEvents_nil (cfg : Config) (s : ModelStats) :
    recordEvents cfg s [] = s := rfl

theorem recordEvents_cons (cfg : Config) (s : ModelStats) (p : UsageEvent × Nat)
    (tl : List (UsageEvent × Nat)) :
    recordEvents cfg s (p :: tl) =
      recordEvents cfg (applyEventToStats cfg s p.1 p.2) tl := rfl

theorem recordEvents_append (cfg : Config) (s : ModelStats)
    (l1 l2 : List (UsageEvent × Nat)) :
    recordEvents cfg s (l1 ++ l2) = recordEvents cfg (recordEvents cfg s l1) l2 := by
  simp [recordEvents, List.foldl_append]

theorem applyEvent_requests (cfg : Config) (s : ModelStats) (e : UsageEvent) (t : Nat) :
    (applyEventToStats cfg s e t).totals.requests = s.totals.requests + 1 ∧
    sumRequests (applyEventToStats cfg s e t).providers = sumRequests s.providers + 1 ∧
    sumRequests (applyEventToStats cfg s e t).models = sumRequests s.models + 1 ∧
    sumRequests (applyEventToStats cfg s e t).task_types =
      sumRequests s.task_types + 1 := by
  refine ⟨rfl, ?_, ?_, ?_⟩ <;>
    exact mapSum_updateMap _ _ _ _ _ 1 rfl (fun v => rfl)

theorem recordEvents_requests (cfg : Config) (es : List (UsageEvent × Nat))
    (s : ModelStats) :
    (recordEvents cfg s es).totals.requests = s.totals.requests + es.length ∧
    sumRequests (recordEvents cfg s es).providers = sumRequests s.providers + es.length ∧
    sumRequests (recordEvents cfg s es).models = sumRequests s.models + es.length ∧
    sumRequests (recordEvents cfg s es).task_types =
      sumRequests s.task_types + es.length := by
  induction es generalizing s with
  | nil => simp [recordEvents_nil]
  | cons p tl ih =>
    have h1 := applyEvent_requests cfg s p.1 p.2
    have h2 := ih (applyEventToStats cfg s p.1 p.2)
    rw [recordEvents_cons]
    refine ⟨?_, ?_, ?_, ?_⟩ <;> simp only [List.length_cons] <;> omega

theorem applyEvent_matrix_self (cfg : Config) (s : ModelStats) (e : UsageEvent)
    (t : Nat) :
    matrixRowSum (applyEventToStats cfg s e t) e.model =
      matrixRowSum s e.model + 1 ∧
    modelRequests (applyEventToStats cfg s e t) e.model =
      modelRequests s e.model + 1 := by
  have hmodels := lookupMap_updateMap_self s.models e.model zeroTotals (addEvent e)
  have hmatrix := lookupMap_updateMap_self s.model_task_matrix e.model []
    (fun row => updateMap row e.task_type 0 (· + 1))
  have hrow : mapSum (updateMap ((lookupMap s.model_task_matrix e.model).getD [])
      e.task_type 0 (· + 1)) (fun n => n) =
      mapSum ((lookupMap s.model_task_matrix e.model).getD []) (fun n => n) + 1 :=
    mapSum_updateMap _ _ _ _ _ 1 rfl (fun v => rfl)
  constructor
  · simp only [matrixRowSum, applyEventToStats, hmatrix, Option.getD_some]
    exact hrow
  · simp only [modelRequests, applyEventToStats, hmodels, Option.map_some]
    cases hl : lookupMap s.models e.model <;> simp [hl, addEvent, zeroTotals]

theorem applyEvent_matrix_other (cfg : Config) (s : ModelStats) (e : UsageEvent)
    (t : Nat) (m : String) (hm : m ≠ e.model) :
    matrixRowSum (applyEventToStats cfg s e t) m = matrixRowSum s m ∧
    modelRequests (applyEventToStats cfg s e t) m = modelRequests s m := by
  have hmodels := lookupMap_updateMap_ne s.models e.model m zeroTotals (addEvent e) hm
  have hmatrix := lookupMap_updateMap_ne s.model_task_matrix e.model m []
    (fun row => updateMap row e.task_type 0 (· + 1)) hm
  simp [matrixRowSum, modelRequests, applyEventToStats, hmodels, hmatrix]

theorem recordEvents_matrix_inv (cfg : Config) (es : List (UsageEvent × Nat))
    (s : ModelStats) (m : String)
    (h : matrixRowSum s m = modelRequests s m) :
    matrixRowSum (recordEvents cfg s es) m = modelRequests (recordEvents cfg s es) m := by
  induction es generalizing s with
  | nil => simpa [recordEvents_nil] using h
  | cons p tl ih =>
    rw [recordEvents_cons]
    refine ih (applyEventToStats cfg s p.1 p.2) ?_
    by_cases hm : m = p.1.model
    · subst hm
      have hstep := applyEvent_matrix_self cfg s p.1 p.2
      omega
    · have hstep := applyEvent_matrix_other cfg s p.1 p.2 m hm
      omega

theorem applyEvent_savings_le (cfg : Config) (s : ModelStats) (e : UsageEvent)
    (t : Nat) :
    s.totals.savings ≤ (applyEventToStats cfg s e t).totals.savings :=
  le_add_of_nonneg_right (le_max_left 0 _)

theorem recordEvents_savings_le (cfg : Config) (es : List (UsageEvent × Nat))
    (s : ModelStats) :
    s.totals.savings ≤ (recordEvents cfg s es).totals.savings := by
  induction es generalizing s with
  | nil => simp [recordEvents_nil]
  | cons p tl ih =>
    rw [recordEvents_cons]
    exact (applyEvent_savings_le cfg s p.1 p.2).trans
      (ih (applyEventToStats cfg s p.1 p.2))

/-! ## Claim theorems -/

/-- C1: for every sequence of N usage events folded into the default
aggregate record, `totals.requests` equals N, as do the request sums over
the `providers`, `models` and `task_types` maps. -/
theorem totals_requests_eq_event_count (cfg : Config) (t0 : Nat)
    (es : List (UsageEvent × Nat)) :
    (recordEvents cfg (getDefaultModelStats t0) es).totals.requests = es.length ∧
    sumRequests (recordEvents cfg (getDefaultModelStats t0) es).providers = es.length ∧
    sumRequests (recordEvents cfg (getDefaultModelStats t0) es).models = es.length ∧
    sumRequests (recordEvents cfg (getDefaultModelStats t0) es).task_types =
      es.length := by
  have h := recordEvents_requests cfg es (getDefaultModelStats t0)
  have hp : sumRequests (getDefaultModelStats t0).providers = 0 := rfl
  have hm : sumRequests (getDefaultModelStats t0).models = 0 := rfl
  have ht : sumRequests (getDefaultModelStats t0).task_types = 0 := rfl
  have hr : (getDefaultModelStats t0).totals.requests = 0 := rfl
  omega

/-- C2: a `record` call on a persisted window record whose `windowStart`
is more than `windowDurationMs` in the past discards the stale
`tokensUsed` (the result is exactly `tokensIn + tokensOut`) and resets
`sessions` to 1. -/
theorem stale_window_record_resets (cfg : Config) (u : StoredMax)
    (tin tout now : Nat) (h : cfg.windowDurationMs < now - u.windowStart) :
    ∃ r, updateClaudeMaxUsage cfg (KVSlot.valid u) tin tout now = .ok r ∧
      r.tokensUsed = tin + tout ∧ r.sessions = 1 := by
  simp only [updateClaudeMaxUsage, h, if_true]
  refine ⟨_, rfl, ?_, ?_⟩ <;> split <;> simp

/-- C2 witness at a concrete stale record. -/
theorem stale_window_record_resets_witness :
    ∃ r, updateClaudeMaxUsage defaultConfig (KVSlot.valid staleStored) 100 200 c4now
        = .ok r ∧ r.tokensUsed = 100 + 200 ∧ r.sessions = 1 :=
  stale_window_record_resets defaultConfig staleStored 100 200 c4now (by decide)

/-- C3: a `record` call on a persisted record whose `weekStart` predates
the most recent Monday 00:00 UTC resets `weeklyTokensUsed` to exactly
`tokensIn + tokensOut` and advances `weekStart` to the current Monday. -/
theorem stale_week_record_resets (cfg : Config) (u : StoredMax)
    (tin tout now : Nat) (h : u.weekStart < getWeekStart now) :
    ∃ r, updateClaudeMaxUsage cfg (KVSlot.valid u) tin tout now = .ok r ∧
      r.weeklyTokensUsed = tin + tout ∧ r.weekStart = getWeekStart now := by
  simp only [updateClaudeMaxUsage]
  split <;>
  · simp only [h, or_true, if_true]
    refine ⟨_, rfl, by simp, ?_⟩
    by_cases hw : getWeekStart now = 0 <;> simp [hw]

/-- C3 witness at a concrete record whose `weekStart` is almost two years
stale. -/
theorem stale_week_record_resets_witness :
    ∃ r, updateClaudeMaxUsage defaultConfig (KVSlot.valid staleStored) 100 200 c4now
        = .ok r ∧ r.weeklyTokensUsed = 100 + 200 ∧ r.weekStart = getWeekStart c4now :=
  stale_week_record_resets defaultConfig staleStored 100 200 c4now (by decide)

theorem c4savings_unfold :
    c4savings (updateModelStats defaultConfig KVSlot.absent KVSlot.absent c4event c4now)
      = some ((getDefaultModelStats c4now).totals.savings +
          max 0 (((c4event.tokens_in : ℚ) * defaultConfig.opusCostIn +
            (c4event.tokens_out : ℚ) * defaultConfig.opusCostOut) / 1000
              - c4event.cost)) := rfl

/-- C4: recording the spec's worked event against fresh aggregate and
window state yields `models["claude-opus-4"].requests = 1`,
`model_task_matrix["claude-opus-4"]["planning"] = 1`, window
`tokensUsed = 1500` and `sessions = 1`, and `totals.savings = 1/400`
(that is, 0.0025). -/
theorem worked_scenario_record :
    c4counts (updateModelStats defaultConfig KVSlot.absent KVSlot.absent c4event c4now)
        = some (some 1, some 1, 1500, 1) ∧
    c4savings (updateModelStats defaultConfig KVSlot.absent KVSlot.absent c4event c4now)
        = some (1 / 400) := by
  refine ⟨by decide, ?_⟩
  rw [c4savings_unfold]
  have hx : ((c4event.tokens_in : ℚ) * defaultConfig.opusCostIn +
      (c4event.tokens_out : ℚ) * defaultConfig.opusCostOut) / 1000 - c4event.cost
        = 1 / 400 := by
    norm_num [c4event, defaultConfig]
  rw [hx, max_eq_right (by norm_num)]
  norm_num [getDefaultModelStats]

/-- C5 counterexample: with eleven records in the store, `/usage/live`
does not return the ten most recent records newest first — the newest
record is missing entirely. -/
theorem usage_live_not_most_recent_cex :
    handleUsageLiveKeys elevenKeys ≠ tenMostRecentNewestFirst elevenKeys := by
  decide

/-- C5 (amended): `/usage/live` returns the ten records with the
lexicographically first (oldest) keys — the first ten of the
collaborator's ascending key order — reversed, so the newest of those ten
is first: the output is the reverse of the first ten keys, is sorted
newest first, has `min 10 n` entries, and every returned record is older
than every record left out. -/
theorem usage_live_returns_oldest_ten (keys : List Nat)
    (h : List.Sorted (· < ·) keys) :
    handleUsageLiveKeys keys = (keys.take 10).reverse ∧
    List.Sorted (· > ·) (handleUsageLiveKeys keys) ∧
    (handleUsageLiveKeys keys).length = min 10 keys.length ∧
    ∀ a ∈ handleUsageLiveKeys keys, ∀ b ∈ keys,
      b ∉ handleUsageLiveKeys keys → a < b := by
  refine ⟨rfl, ?_, ?_, ?_⟩
  · have htake : List.Pairwise (· < ·) (keys.take 10) :=
      h.sublist (List.take_sublist 10 keys)
    exact List.pairwise_reverse.mpr htake
  · simp [handleUsageLiveKeys, kvListUsage]
  · intro a ha b hb hbn
    rw [handleUsageLiveKeys, kvListUsage, List.mem_reverse] at ha hbn
    have hsplit : keys.take 10 ++ keys.drop 10 = keys := List.take_append_drop 10 keys
    have hpair : List.Pairwise (· < ·) (keys.take 10 ++ keys.drop 10) := by
      rw [hsplit]; exact h
    have hdrop : b ∈ keys.drop 10 := by
      have := hsplit ▸ hb
      rcases List.mem_append.mp this with h1 | h2
      · exact absurd h1 hbn
      · exact h2
    exact (List.pairwise_append.mp hpair).2.2 a ha b hdrop

/-- C5 witness at the eleven-record store. -/
theorem usage_live_returns_oldest_ten_witness :
    handleUsageLiveKeys elevenKeys = (elevenKeys.take 10).reverse ∧ (1 : Nat) < 11 :=
  ⟨(usage_live_returns_oldest_ten elevenKeys (by decide)).1,
    (usage_live_returns_oldest_ten elevenKeys (by decide)).2.2.2 1 (by decide) 11
      (by decide) (by decide)⟩

/-- C6 counterexample: the Aggregate read (`getModelStats`) has no
try/catch around `JSON.parse`, so a malformed `model_stats` value makes
the read propagate the parse error instead of falling back to the default
state. -/
theorem malformed_stats_propagates_cex :
    getModelStats KVSlot.malformed 0 = Except.error () := rfl

/-- C6 (amended): only the Time-Window read catches malformed persisted
JSON and falls back to the default state; the Time-Window record and the
Aggregate read propagate the parse error to the caller. -/
theorem malformed_json_handling (cfg : Config) (now tin tout : Nat) :
    getClaudeMaxUsage cfg KVSlot.malformed now = defaultMaxView cfg now ∧
    updateClaudeMaxUsage cfg KVSlot.malformed tin tout now = Except.error () ∧
    getModelStats KVSlot.malformed now = Except.error () :=
  ⟨rfl, rfl, rfl⟩

/-- C7: the aggregator's record calls the window record exactly when the
event's provider is `anthropic` and its lowercased model contains
`opus`; a non-matching event leaves the persisted `claude_max_usage`
slot completely unchanged while the aggregate stats are updated. -/
theorem opus_gating_frame (cfg : Config) (s : ModelStats) (cm : KVSlot StoredMax)
    (e : UsageEvent) (now : Nat) :
    (isOpusEvent e = false →
      updateModelStats cfg (KVSlot.valid s) cm e now =
        .ok (KVSlot.valid (applyEventToStats cfg s e now), cm)) ∧
    (isOpusEvent e = true →
      updateModelStats cfg (KVSlot.valid s) cm e now =
        (updateClaudeMaxUsage cfg cm e.tokens_in e.tokens_out now).map
          (fun r => (KVSlot.valid (applyEventToStats cfg s e now), KVSlot.valid r))) := by
  constructor
  · intro hno
    simp [updateModelStats, getModelStats, hno]
  · intro hyes
    simp only [updateModelStats, getModelStats, hyes, if_true]
    cases hr : updateClaudeMaxUsage cfg cm e.tokens_in e.tokens_out now <;>
      simp [hr, Except.map, Bind.bind, Except.bind, Pure.pure, Except.pure]

/-- C7 witness: a `gemini` event leaves the window slot untouched, while
the worked Opus event routes through the window update. -/
theorem opus_gating_frame_witness :
    updateModelStats defaultConfig (KVSlot.valid (getDefaultModelStats 0))
        (KVSlot.valid staleStored) geminiEvent c4now =
      .ok (KVSlot.valid
            (applyEventToStats defaultConfig (getDefaultModelStats 0) geminiEvent c4now),
          KVSlot.valid staleStored) ∧
    updateModelStats defaultConfig (KVSlot.valid (getDefaultModelStats 0))
        (KVSlot.valid staleStored) c4event c4now =
      (updateClaudeMaxUsage defaultConfig (KVSlot.valid staleStored)
          c4event.tokens_in c4event.tokens_out c4now).map
        (fun r => (KVSlot.valid
            (applyEventToStats defaultConfig (getDefaultModelStats 0) c4event c4now),
          KVSlot.valid r)) :=
  ⟨(opus_gating_frame defaultConfig (getDefaultModelStats 0) (KVSlot.valid staleStored)
      geminiEvent c4now).1 (by decide),
    (opus_gating_frame defaultConfig (getDefaultModelStats 0) (KVSlot.valid staleStored)
      c4event c4now).2 (by decide)⟩

/-- C8: over any sequence of events with non-negative costs and token
counts, `totals.savings` is monotonically non-decreasing: extending the
recorded sequence never decreases it. -/
theorem savings_monotone (cfg : Config) (s : ModelStats)
    (es1 es2 : List (UsageEvent × Nat))
    (h : ∀ p ∈ es1 ++ es2, 0 ≤ (p : UsageEvent × Nat).1.cost) :
    (recordEvents cfg s es1).totals.savings ≤
      (recordEvents cfg s (es1 ++ es2)).totals.savings := by
  rw [recordEvents_append]
  exact recordEvents_savings_le cfg es2 (recordEvents cfg s es1)

/-- C8 witness on a two-event sequence. -/
theorem savings_monotone_witness :
    (recordEvents defaultConfig (getDefaultModelStats 0) [(c4event, 0)]).totals.savings ≤
      (recordEvents defaultConfig (getDefaultModelStats 0)
        ([(c4event, 0)] ++ [(geminiEvent, 1)])).totals.savings :=
  savings_monotone defaultConfig (getDefaultModelStats 0) [(c4event, 0)]
    [(geminiEvent, 1)] (by norm_num [c4event, geminiEvent])

/-- C9: whenever the Time-Window read computes a `daysUntilWeekReset`
field, its value lies in the closed interval `[1, 7]`. -/
theorem daysUntilWeekReset_in_range (cfg : Config) (slot : KVSlot StoredMax)
    (now d : Nat)
    (h : (getClaudeMaxUsage cfg slot now).daysUntilWeekReset = some d) :
    1 ≤ d ∧ d ≤ 7 := by
  match slot with
  | .absent => simp [getClaudeMaxUsage, defaultMaxView] at h
  | .malformed => simp [getClaudeMaxUsage, defaultMaxView] at h
  | .valid u =>
    simp only [getClaudeMaxUsage, Option.some.injEq] at h
    rw [getWeekStart] at h
    simp only [msPerDay] at h
    by_cases hc : ((now / 86400000 + 4) % 7 = 0) <;> simp only [hc, if_true, if_false] at h <;> omega

/-- C9 witness at a concrete read. -/
theorem daysUntilWeekReset_in_range_witness : 1 ≤ 6 ∧ 6 ≤ 7 :=
  daysUntilWeekReset_in_range defaultConfig
    (KVSlot.valid (getDefaultMaxUsage defaultConfig 1699000000000)) 1700000000000 6
    (by decide)

/-- C10: after any event sequence folded into the default aggregate
record, for every model the row sum of `model_task_matrix[m]` equals
`models[m].requests`. -/
theorem matrix_row_sum_eq_model_requests (cfg : Config) (t0 : Nat)
    (es : List (UsageEvent × Nat)) (m : String) :
    matrixRowSum (recordEvents cfg (getDefaultModelStats t0) es) m =
      modelRequests (recordEvents cfg (getDefaultModelStats t0) es) m :=
  recordEvents_matrix_inv cfg es (getDefaultModelStats t0) m rfl

end ArniWorker
